import Mathlib

/-!
Verification of the Bot-Dash log dashboard (`src/script.js` and the unnamed
variant `src/unnamed/part_000`, two near-identical copies of the `LogViewer`
class).  The pure log pipeline (`getLogClass`, `extractTimestamp`,
`formatLogContent`) is embedded directly; the stateful controller is embedded
as a record of the instance fields of `LogViewer` together with explicit
transition functions for each method.  Network responses and timer callbacks
are passed in as explicit parameters, splitting each `async` method at its
`await` points; uncaught JavaScript exceptions are modelled with `Except`.
-/

namespace BotDash

/-! ### JavaScript character primitives -/

/-- The character class recognised by the JavaScript regular-expression
escape `\s` (whitespace, including the unicode space separators). -/
def jsSpace (c : Char) : Bool :=
  let n := c.toNat
  n == 32 || n == 9 || n == 10 || n == 11 || n == 12 || n == 13 ||
  n == 0xa0 || n == 0x1680 || (0x2000 ≤ n && n ≤ 0x200a) ||
  n == 0x2028 || n == 0x2029 || n == 0x202f || n == 0x205f ||
  n == 0x3000 || n == 0xfeff

/-- ASCII lowercase mapping, as `String.prototype.toLowerCase` acts on the
ASCII range (the classifier keywords are all ASCII). -/
def jsToLower (c : Char) : Char :=
  if 65 ≤ c.toNat && c.toNat ≤ 90 then Char.ofNat (c.toNat + 32) else c

/-! ### List-of-character helpers mirroring the JavaScript string methods -/

/-- Does `p` occur as a prefix of `s`?  (Helper for substring search.) -/
def hasPrefixB : List Char → List Char → Bool
  | [], _ => true
  | _ :: _, [] => false
  | p :: ps, c :: cs => p == c && hasPrefixB ps cs

/-- `String.prototype.includes`: does `p` occur as a contiguous substring
of `s`? -/
def containsSub : List Char → List Char → Bool
  | s, p =>
    hasPrefixB p s ||
      match s with
      | [] => false
      | _ :: cs => containsSub cs p

/-- `String.prototype.replace(p, "")` with a string pattern: remove the
first (leftmost) occurrence of `p` from `s`; `s` unchanged if absent. -/
def replaceFirstL (p : List Char) : List Char → List Char
  | [] => if hasPrefixB p [] then ([] : List Char).drop p.length else []
  | c :: cs =>
    if hasPrefixB p (c :: cs) then (c :: cs).drop p.length
    else c :: replaceFirstL p cs

/-- `String.prototype.trim`: drop `\s` characters from both ends. -/
def jsTrimL (s : List Char) : List Char :=
  ((s.dropWhile jsSpace).reverse.dropWhile jsSpace).reverse

def jsTrim (s : String) : String := ⟨jsTrimL s.data⟩

def jsReplaceFirst (s p : String) : String := ⟨replaceFirstL p.data s.data⟩

def jsIncludes (s p : String) : Bool := containsSub s.data p.data

def jsToLowerStr (s : String) : String := ⟨s.data.map jsToLower⟩

/-- `escapeHtml` routes the text through a DOM text node
(`div.textContent = text; div.innerHTML`), which escapes the markup
characters of a text node. -/
def escapeHtmlChar (c : Char) : List Char :=
  if c == '&' then "&amp;".data
  else if c == '<' then "&lt;".data
  else if c == '>' then "&gt;".data
  else [c]

def escapeHtml (s : String) : String := ⟨(s.data.map escapeHtmlChar).flatten⟩

/-! ### The timestamp regular expressions

All four patterns in `extractTimestamp` are fixed-length sequences of
character classes (digits, literal punctuation and one `\s`), so a pattern is
embedded as a list of character classes and JavaScript's leftmost-match
`String.prototype.match` as a left-to-right scan. -/

/-- One position of a timestamp pattern: a `\d`, a `\s`, or a literal. -/
inductive CClass where
  | digit
  | space
  | lit (c : Char)
deriving DecidableEq

def cmatch : CClass → Char → Bool
  | .digit, c => c.isDigit
  | .space, c => jsSpace c
  | .lit a, c => a == c

/-- Does the pattern match starting exactly at the head of `s`? -/
def matchesHere : List CClass → List Char → Bool
  | [], _ => true
  | _ :: _, [] => false
  | p :: ps, c :: cs => cmatch p c && matchesHere ps cs

/-- Leftmost match: scan positions left to right and return the matched
substring of the first position where the pattern matches. -/
def scan (pat : List CClass) : List Char → Option (List Char)
  | [] => if matchesHere pat [] then some [] else none
  | c :: cs =>
    if matchesHere pat (c :: cs) then some ((c :: cs).take pat.length)
    else scan pat cs

/-- Is there any position of `s` at which the pattern matches? -/
def existsMatchB (pat : List CClass) : List Char → Bool
  | [] => matchesHere pat []
  | c :: cs => matchesHere pat (c :: cs) || existsMatchB pat cs

/-- `/(\d{4}-\d{2}-\d{2}\s\d{2}:\d{2}:\d{2})/` -/
def patternYMD : List CClass :=
  [.digit, .digit, .digit, .digit, .lit '-', .digit, .digit, .lit '-',
   .digit, .digit, .space, .digit, .digit, .lit ':', .digit, .digit,
   .lit ':', .digit, .digit]

/-- `/(\d{2}\/\d{2}\/\d{4}\s\d{2}:\d{2}:\d{2})/` -/
def patternMDY : List CClass :=
  [.digit, .digit, .lit '/', .digit, .digit, .lit '/', .digit, .digit,
   .digit, .digit, .space, .digit, .digit, .lit ':', .digit, .digit,
   .lit ':', .digit, .digit]

/-- `/(\d{2}:\d{2}:\d{2})/` -/
def patternTime : List CClass :=
  [.digit, .digit, .lit ':', .digit, .digit, .lit ':', .digit, .digit]

/-- `/(\[\d{4}-\d{2}-\d{2}\s\d{2}:\d{2}:\d{2}\])/` -/
def patternBracket : List CClass := .lit '[' :: (patternYMD ++ [.lit ']'])

/-- The `patterns` array of `extractTimestamp`, in source order: the bare
`HH:MM:SS` pattern sits THIRD and the bracketed pattern LAST. -/
def patterns : List (List CClass) := [patternYMD, patternMDY, patternTime, patternBracket]

/-- The `for (const pattern of patterns)` loop: first pattern that matches
anywhere wins; its matched substring (capture group 1 = whole match) is
returned. -/
def tryPatterns : List (List CClass) → List Char → Option (List Char)
  | [], _ => none
  | p :: ps, s =>
    match scan p s with
    | some m => some m
    | none => tryPatterns ps s

/-- `extractTimestamp(line)` of `LogViewer` (identical in both variants). -/
def extractTimestamp (line : String) : Option String :=
  (tryPatterns patterns line.data).map String.mk

/-- `formatLogContent(line)`: strip the first occurrence of the extracted
timestamp (if any), trim, then HTML-escape. -/
def formatLogContent (line : String) : String :=
  match extractTimestamp line with
  | some ts => escapeHtml (jsTrim (jsReplaceFirst line ts))
  | none => escapeHtml line

/-- `getLogClass(line)`: case-insensitive keyword search in fixed priority
order (identical in both variants). -/
def getLogClass (line : String) : String :=
  let lowerLine := jsToLowerStr line
  if jsIncludes lowerLine "error" || jsIncludes lowerLine "exception" ||
      jsIncludes lowerLine "failed" then "error"
  else if jsIncludes lowerLine "warning" || jsIncludes lowerLine "warn" then "warning"
  else if jsIncludes lowerLine "success" || jsIncludes lowerLine "completed" ||
      jsIncludes lowerLine "ok" then "success"
  else if jsIncludes lowerLine "info" || jsIncludes lowerLine "debug" then "info"
  else ""

/-! ### `parseInt`

`enableSchedule` reads `parseInt(this.scheduleInterval.value) || 5`.
JavaScript `parseInt` (no radix argument) skips leading whitespace, accepts
an optional sign, a `0x`/`0X` hexadecimal prefix, and then consumes leading
digits, ignoring the rest; `NaN` (here `none`) when no digit is consumed. -/

def decDigit (c : Char) : Option Nat :=
  if c.isDigit then some (c.toNat - 48) else none

def hexDigit (c : Char) : Option Nat :=
  if c.isDigit then some (c.toNat - 48)
  else if 97 ≤ c.toNat && c.toNat ≤ 102 then some (c.toNat - 87)
  else if 65 ≤ c.toNat && c.toNat ≤ 70 then some (c.toNat - 55)
  else none

def readNumGo (dval : Char → Option Nat) (base : Nat) : List Char → Nat → Nat
  | [], acc => acc
  | c :: cs, acc =>
    match dval c with
    | none => acc
    | some d => readNumGo dval base cs (base * acc + d)

def readNum (dval : Char → Option Nat) (base : Nat) : List Char → Option Nat
  | [] => none
  | c :: cs =>
    match dval c with
    | none => none
    | some d => some (readNumGo dval base cs d)

def jsParseInt (v : String) : Option Int :=
  let cs := v.data.dropWhile jsSpace
  let signed : Bool × List Char :=
    match cs with
    | '-' :: rest => (true, rest)
    | '+' :: rest => (false, rest)
    | _ => (false, cs)
  let numOpt : Option Nat :=
    match signed.2 with
    | '0' :: x :: rest =>
      if x == 'x' || x == 'X' then readNum hexDigit 16 rest
      else readNum decDigit 10 signed.2
    | _ => readNum decDigit 10 signed.2
  numOpt.map (fun n => if signed.1 then -(n : Int) else (n : Int))

/-! ### The `LogViewer` controller state

The mutable instance fields of the `LogViewer` class together with the
observable state of the page it manipulates.  Browser timers are modelled by
a list of live recurring-timer handles created by `scheduleBot` (with their
period), plus a fresh-handle counter; network activity is modelled by
counters of issued GET requests.  Purely cosmetic surfaces that no method
reads back (scroll geometry, the line counter, the last-updated clock) are
not tracked.  The embedding follows the network-calling variant
`src/unnamed/part_000`; where `src/script.js` differs it is noted inline. -/

structure LogViewer where
  isLoading : Bool
  isBotRunning : Bool
  /-- `this.scheduledTask` (the handle returned by the last `setInterval`). -/
  scheduledTask : Option Nat
  /-- Live recurring timers created by `scheduleBot`: (handle, period ms). -/
  scheduleTimers : List (Nat × Int)
  nextHandle : Nat
  startBotBtnDisabled : Bool
  stopBotBtnDisabled : Bool
  scheduleEnabledDisabled : Bool
  scheduleIntervalDisabled : Bool
  scheduleUnitDisabled : Bool
  /-- The schedule-enabling checkbox `this.scheduleEnabled.checked`. -/
  scheduleEnabledChecked : Bool
  /-- `this.scheduleInterval.value` (a raw input string). -/
  scheduleIntervalValue : String
  /-- `this.scheduleUnit.value` (the select: seconds, minutes, hours). -/
  scheduleUnitValue : String
  /-- `errorMessage`: `some m` when shown with text `m`, `none` when hidden. -/
  errorMessageShown : Option String
  statusText : String
  statusType : String
  /-- Toast notifications, newest first: (message, type). -/
  toasts : List (String × String)
  /-- `addLogEntry` insertions, newest first: (message, type). -/
  logEntries : List (String × String)
  /-- Count of GET requests issued to the log resource. -/
  logRequests : Nat
  /-- Count of GET requests issued to the process-pdfs endpoint. -/
  botRequests : Nat
  /-- Rendered log area: `none` = placeholder, `some entries` =
  (class, timestamp, body) per displayed line. -/
  displayed : Option (List (String × Option String × String))
deriving DecidableEq

/-- Outcome of `response.json()` on the process-pdfs response: either the
body fails to parse (the promise rejects), or it parses and the `message`
and `error` fields are as given. -/
inductive JsonBody where
  | invalid (msg : String)
  | fields (message errField : Option String)
deriving DecidableEq

/-- Outcome of the process-pdfs fetch: the fetch itself rejects, or a
response arrives with the given `ok` flag and body. -/
inductive BotFetchOutcome where
  | netError (msg : String)
  | httpResponse (ok : Bool) (body : JsonBody)
deriving DecidableEq

/-- Outcome of the `logs.txt` fetch. -/
inductive LogFetchOutcome where
  | netError (msg : String)
  | httpResponse (ok : Bool) (statusCode : Nat) (statusText : String) (text : String)
deriving DecidableEq

def setStatus (t ty : String) (s : LogViewer) : LogViewer :=
  { s with statusText := t, statusType := ty }

def showError (m : String) (s : LogViewer) : LogViewer :=
  { s with errorMessageShown := some m }

def hideError (s : LogViewer) : LogViewer :=
  { s with errorMessageShown := none }

def showToast (m ty : String) (s : LogViewer) : LogViewer :=
  { s with toasts := (m, ty) :: s.toasts }

def addLogEntry (m ty : String) (s : LogViewer) : LogViewer :=
  { s with logEntries := (m, ty) :: s.logEntries }

/-- The pure content of `displayLogs`: split on newline, drop
blank/whitespace-only lines, reverse (latest first), classify each line. -/
def renderLines (logText : String) : List (String × Option String × String) :=
  (((logText.splitOn "\n").filter (fun l => jsTrim l != "")).reverse).map
    (fun line => (getLogClass line, extractTimestamp line, formatLogContent line))

/-- `displayLogs(logText)`; the scroll-restoration block only touches scroll
geometry, which is not tracked. -/
def displayLogs (logText : String) (s : LogViewer) : LogViewer :=
  if jsTrim logText == "" then { s with displayed := none }
  else { s with displayed := some (renderLines logText) }

/-- `updateStats(logText)` (part_000 wording): the line counter and clock
are not tracked; the status update depending on the bot/schedule state is. -/
def updateStats (s : LogViewer) : LogViewer :=
  if s.isBotRunning then setStatus "Running" "info" s
  else if s.scheduledTask.isSome then setStatus "Scheduled" "info" s
  else setStatus "Connected" "success" s

/-! ### `loadLogs` (4.3 PollingController)

`async loadLogs()` is split at its `await`s: `loadLogsEnter` is the
synchronous prefix of an invocation (guard, set the loading flag, hide the
error, issue the GET); `loadLogsResolve` is the continuation once the fetch
settles, ending in the `finally` block. -/

def loadLogsEnter (s : LogViewer) : LogViewer :=
  if s.isLoading then s
  else
    let s1 := hideError { s with isLoading := true }
    { s1 with logRequests := s1.logRequests + 1 }

def loadLogsCatch (m : String) (s : LogViewer) : LogViewer :=
  showError ("Error loading logs: " ++ m) s

def loadLogsResolve (o : LogFetchOutcome) (s : LogViewer) : LogViewer :=
  let afterTry :=
    match o with
    | .netError m => loadLogsCatch m s
    | .httpResponse ok code stext text =>
      if ok then updateStats (displayLogs text s)
      else loadLogsCatch ("Failed to load logs: " ++ toString code ++ " " ++ stext) s
  { afterTry with isLoading := false }

/-! ### `startBot` / `stopBot` (4.5 BotRunStateMachine, part_000 variant) -/

/-- Synchronous prefix of `async startBot()` past the re-entrancy guard:
set the running flag, flip the five controls, set status Running and issue
the GET (the code then suspends at `await fetch`). -/
def startBotEnter (s : LogViewer) : LogViewer :=
  let s1 := { s with isBotRunning := true, startBotBtnDisabled := true,
                     stopBotBtnDisabled := false, scheduleEnabledDisabled := true,
                     scheduleIntervalDisabled := true, scheduleUnitDisabled := true }
  let s2 := setStatus "Running" "info" s1
  { s2 with botRequests := s2.botRequests + 1 }

/-- The `catch` block of `startBot` with the caught message. -/
def startBotCatch (m : String) (s : LogViewer) : LogViewer :=
  addLogEntry ("Error starting bot: " ++ m) "error"
    (showToast ("Error: " ++ m) "error" (setStatus "Error" "error" s))

/-- The `finally` block of `startBot`: always clear the running flag and
restore the five controls. -/
def startBotFinally (s : LogViewer) : LogViewer :=
  { s with isBotRunning := false, startBotBtnDisabled := false,
           stopBotBtnDisabled := true, scheduleEnabledDisabled := false,
           scheduleIntervalDisabled := false, scheduleUnitDisabled := false }

/-- Continuation of `startBot` once the fetch settles.  Note the code runs
`await response.json()` before checking `response.ok`, so an unparsable body
takes the catch path even on a 2xx. -/
def startBotResolve (o : BotFetchOutcome) (s : LogViewer) : LogViewer :=
  let afterTry :=
    match o with
    | .netError m => startBotCatch m s
    | .httpResponse ok body =>
      match body with
      | .invalid m => startBotCatch m s
      | .fields msg errf =>
        if ok then
          let m := msg.getD "PDF processing started successfully"
          setStatus "Completed" "success" (showToast m "success" s)
        else
          startBotCatch (errf.getD "Failed to start bot") s
  startBotFinally afterTry

/-- A whole `startBot()` invocation whose fetch settles with outcome `o`. -/
def startBot (o : BotFetchOutcome) (s : LogViewer) : LogViewer :=
  if s.isBotRunning then s else startBotResolve o (startBotEnter s)

/-- `stopBot()`.  The constructor never assigns `this.scheduleBtn`, so the
write `this.scheduleBtn.disabled = false` throws a TypeError after the five
tracked controls were already flipped; the thrown case carries the state at
the throw (the scheduled task is NOT cleared and no log entry is added). -/
def stopBot (s : LogViewer) : Except (String × LogViewer) LogViewer :=
  if !s.isBotRunning then .ok s
  else
    let s1 := { s with isBotRunning := false, startBotBtnDisabled := false,
                       stopBotBtnDisabled := true, scheduleEnabledDisabled := false,
                       scheduleIntervalDisabled := false, scheduleUnitDisabled := false }
    .error ("TypeError: cannot set disabled of undefined", s1)

def isThrow : Except (String × LogViewer) LogViewer → Bool
  | .error _ => true
  | .ok _ => false

/-- The controller state after a `stopBot` call, whether it returned or
threw (an uncaught throw leaves the mutations made before it). -/
def stateAfter : Except (String × LogViewer) LogViewer → LogViewer
  | .error (_, s) => s
  | .ok s => s

/-! ### The schedule controller (4.4) -/

def clearScheduledTask (s : LogViewer) : LogViewer :=
  match s.scheduledTask with
  | none => s
  | some h =>
    { s with scheduleTimers := s.scheduleTimers.filter (fun p => p.1 != h),
             scheduledTask := none }

/-- `scheduleBot(intervalMs)`: clear any existing schedule, create the new
recurring timer, then start the bot immediately if idle (only the
synchronous prefix of that fire-and-forget `startBot()` runs here; its
resolution is a later `startBotResolve` event). -/
def scheduleBot (ms : Int) (s : LogViewer) : LogViewer :=
  let s1 := clearScheduledTask s
  let s2 := { s1 with scheduleTimers := (s1.nextHandle, ms) :: s1.scheduleTimers,
                      scheduledTask := some s1.nextHandle,
                      nextHandle := s1.nextHandle + 1 }
  if !s2.isBotRunning then startBotEnter s2 else s2

/-- One tick of the timer installed by `scheduleBot`. -/
def scheduleTick (s : LogViewer) : LogViewer :=
  let s1 := if !s.isBotRunning then startBotEnter s else s
  addLogEntry "Scheduled bot task executed" "info" s1

/-- `parseInt(this.scheduleInterval.value) || 5`: in JavaScript both `NaN`
and `0` are falsy, so an unparsable value AND a parsed `0` default to 5. -/
def parsedInterval (s : LogViewer) : Int :=
  match jsParseInt s.scheduleIntervalValue with
  | none => 5
  | some n => if n = 0 then 5 else n

/-- The milliseconds computation of `enableSchedule` (seconds default,
minutes and hours overriding). -/
def intervalMs (s : LogViewer) : Int :=
  let i := parsedInterval s
  if s.scheduleUnitValue == "minutes" then i * 60 * 1000
  else if s.scheduleUnitValue == "hours" then i * 60 * 60 * 1000
  else i * 1000

def enableSchedule (s : LogViewer) : LogViewer :=
  let interval := parsedInterval s
  let ms := intervalMs s
  if ms < 1000 then
    { showError "Interval must be at least 1 second" s with scheduleEnabledChecked := false }
  else
    addLogEntry ("Bot scheduled to run every " ++ toString interval ++ " " ++ s.scheduleUnitValue)
      "info" (scheduleBot ms s)

def disableSchedule (s : LogViewer) : LogViewer :=
  addLogEntry "Schedule disabled" "info" (clearScheduledTask s)

def handleScheduleToggle (s : LogViewer) : LogViewer :=
  if s.scheduleEnabledChecked then enableSchedule s else disableSchedule s

def updateScheduleIfEnabled (s : LogViewer) : LogViewer :=
  if s.scheduleEnabledChecked then enableSchedule s else s

/-- A quiescent viewer (as after the constructor) with the schedule inputs
holding the given strings and the enabling checkbox just ticked. -/
def mkViewer (ival unit : String) : LogViewer :=
  { isLoading := false, isBotRunning := false, scheduledTask := none,
    scheduleTimers := [], nextHandle := 0, startBotBtnDisabled := false,
    stopBotBtnDisabled := true, scheduleEnabledDisabled := false,
    scheduleIntervalDisabled := false, scheduleUnitDisabled := false,
    scheduleEnabledChecked := true, scheduleIntervalValue := ival,
    scheduleUnitValue := unit, errorMessageShown := none, statusText := "",
    statusType := "", toasts := [], logEntries := [], logRequests := 0,
    botRequests := 0, displayed := none }

/-- A viewer in the Running state (mid-flight `startBot`), with an active
5-second schedule. -/
def runningViewer : LogViewer :=
  { (mkViewer "5" "seconds") with
    isBotRunning := true, startBotBtnDisabled := true,
    stopBotBtnDisabled := false, scheduleEnabledDisabled := true,
    scheduleIntervalDisabled := true, scheduleUnitDisabled := true,
    scheduledTask := some 0, scheduleTimers := [(0, 5000)], nextHandle := 1,
    botRequests := 1, statusText := "Running", statusType := "info" }

/-! ### Lemmas about the pattern machinery and substring helpers -/

theorem matchesHere_append (p q : List CClass) :
    ∀ s : List Char, matchesHere (p ++ q) s = true → matchesHere p s = true := by
  induction p with
  | nil => intro s _; simp [matchesHere]
  | cons a ps ih =>
    intro s h
    cases s with
    | nil => simp [matchesHere] at h
    | cons c cs =>
      simp only [List.cons_append, matchesHere, Bool.and_eq_true] at h ⊢
      exact ⟨h.1, ih cs h.2⟩

theorem existsMatchB_of_matchesHere (p : List CClass) (s : List Char)
    (h : matchesHere p s = true) : existsMatchB p s = true := by
  cases s with
  | nil => simpa [existsMatchB] using h
  | cons c cs => simp [existsMatchB, h]

theorem existsMatchB_tail (p : List CClass) (c : Char) (cs : List Char)
    (h : existsMatchB p cs = true) : existsMatchB p (c :: cs) = true := by
  simp [existsMatchB, h]

/-- Any match of the bracketed timestamp pattern contains a match of the
plain `YYYY-MM-DD HH:MM:SS` pattern right after the opening bracket. -/
theorem existsMatchB_bracket_YMD :
    ∀ s : List Char, existsMatchB patternBracket s = true →
      existsMatchB patternYMD s = true := by
  intro s
  induction s with
  | nil => intro h; simp [existsMatchB, patternBracket, matchesHere] at h
  | cons c cs ih =>
    intro h
    simp only [existsMatchB, Bool.or_eq_true] at h ⊢
    rcases h with h | h
    · right
      simp only [patternBracket, matchesHere, Bool.and_eq_true] at h
      exact existsMatchB_of_matchesHere _ _
        (matchesHere_append patternYMD [CClass.lit ']'] cs h.2)
    · exact Or.inr (ih h)

theorem scan_isSome (pat : List CClass) :
    ∀ s : List Char, (scan pat s).isSome = existsMatchB pat s := by
  intro s
  induction s with
  | nil =>
    by_cases h : matchesHere pat [] = true
    · simp [scan, existsMatchB, h]
    · simp [scan, existsMatchB, h]
  | cons c cs ih =>
    by_cases h : matchesHere pat (c :: cs) = true
    · simp [scan, existsMatchB, h]
    · simp only [Bool.not_eq_true] at h
      simp [scan, existsMatchB, h, ih]

theorem matchesHere_take (p : List CClass) :
    ∀ s : List Char, matchesHere p s = true →
      matchesHere p (s.take p.length) = true := by
  induction p with
  | nil => intro s _; simp [matchesHere]
  | cons a ps ih =>
    intro s h
    cases s with
    | nil => simp [matchesHere] at h
    | cons c cs =>
      simp only [matchesHere, Bool.and_eq_true] at h
      simpa [List.length_cons, List.take_succ_cons, matchesHere, h.1]
        using ih cs h.2

theorem scan_matches (pat : List CClass) :
    ∀ s m : List Char, scan pat s = some m → matchesHere pat m = true := by
  intro s
  induction s with
  | nil =>
    intro m h
    by_cases hm : matchesHere pat [] = true
    · simp [scan, hm] at h
      subst h
      exact hm
    · simp [scan, hm] at h
  | cons c cs ih =>
    intro m h
    by_cases hm : matchesHere pat (c :: cs) = true
    · simp [scan, hm] at h
      subst h
      exact matchesHere_take pat (c :: cs) hm
    · simp only [Bool.not_eq_true] at hm
      simp [scan, hm] at h
      exact ih m h

theorem hasPrefixB_take (s : List Char) :
    ∀ n : Nat, hasPrefixB (s.take n) s = true := by
  induction s with
  | nil => intro n; simp [hasPrefixB]
  | cons c cs ih =>
    intro n
    cases n with
    | zero => simp [hasPrefixB]
    | succ k => simp [List.take_succ_cons, hasPrefixB, ih k]

theorem scan_sub (pat : List CClass) :
    ∀ s m : List Char, scan pat s = some m → containsSub s m = true := by
  intro s
  induction s with
  | nil =>
    intro m h
    by_cases hm : matchesHere pat [] = true
    · simp [scan, hm] at h
      subst h
      simp [containsSub, hasPrefixB]
    · simp [scan, hm] at h
  | cons c cs ih =>
    intro m h
    by_cases hm : matchesHere pat (c :: cs) = true
    · simp [scan, hm] at h
      subst h
      simp [containsSub, hasPrefixB_take]
    · simp only [Bool.not_eq_true] at hm
      simp [scan, hm] at h
      simp [containsSub, ih m h]

theorem hasPrefixB_length (p : List Char) :
    ∀ s : List Char, hasPrefixB p s = true → p.length ≤ s.length := by
  induction p with
  | nil => intro s _; simp
  | cons a ps ih =>
    intro s h
    cases s with
    | nil => simp [hasPrefixB] at h
    | cons c cs =>
      simp only [hasPrefixB, Bool.and_eq_true] at h
      simpa using ih cs h.2

theorem replaceFirstL_length (p : List Char) :
    ∀ s : List Char, containsSub s p = true →
      (replaceFirstL p s).length + p.length = s.length := by
  intro s
  induction s with
  | nil =>
    intro h
    cases p with
    | nil => simp [replaceFirstL, hasPrefixB]
    | cons a ps => simp [containsSub, hasPrefixB] at h
  | cons c cs ih =>
    intro h
    by_cases hpre : hasPrefixB p (c :: cs) = true
    · have hlen := hasPrefixB_length p (c :: cs) hpre
      simp only [replaceFirstL, hpre, if_true, List.length_drop]
      omega
    · simp only [Bool.not_eq_true] at hpre
      have hcs : containsSub cs p = true := by
        simp [containsSub, hpre] at h
        exact h
      simp only [replaceFirstL, hpre, if_false, List.length_cons, Bool.false_eq_true]
      have := ih hcs
      omega

theorem hasPrefixB_self_append (p r : List Char) :
    hasPrefixB p (p ++ r) = true := by
  induction p with
  | nil => simp [hasPrefixB]
  | cons a ps ih => simp [hasPrefixB, ih]

theorem containsSub_append_left (a : List Char) (s p : List Char)
    (h : containsSub s p = true) : containsSub (a ++ s) p = true := by
  induction a with
  | nil => simpa using h
  | cons x xs ih => simp [containsSub, ih]

theorem containsSub_self_append (p r : List Char) :
    containsSub (p ++ r) p = true := by
  cases hr : p ++ r with
  | nil => simp [containsSub, hasPrefixB, ← hr, hasPrefixB_self_append]
  | cons c cs => simp [containsSub, ← hr, hasPrefixB_self_append]

/-- A member of the patterns list produced the match returned by
`tryPatterns`. -/
theorem tryPatterns_mem :
    ∀ (ps : List (List CClass)) (s m : List Char),
      tryPatterns ps s = some m → ∃ p, p ∈ ps ∧ scan p s = some m := by
  intro ps
  induction ps with
  | nil => intro s m h; simp [tryPatterns] at h
  | cons p rest ih =>
    intro s m h
    cases hp : scan p s with
    | some m2 =>
      refine ⟨p, by simp, ?_⟩
      simp [tryPatterns, hp] at h
      rw [hp, h]
    | none =>
      simp [tryPatterns, hp] at h
      obtain ⟨q, hq, hscan⟩ := ih s m h
      exact ⟨q, by simp [hq], hscan⟩

theorem containsSub_map_decomp (f : Char → Char) (pre mid post kw : List Char)
    (hm : mid.map f = kw) :
    containsSub ((pre ++ mid ++ post).map f) kw = true := by
  rw [List.map_append, List.map_append, hm, List.append_assoc]
  exact containsSub_append_left _ _ _ (containsSub_self_append kw _)

theorem matchesHere_digit_head (rest : List CClass) (m : List Char)
    (h : matchesHere (CClass.digit :: rest) m = true) :
    ∃ c t, m = c :: t ∧ c.isDigit = true := by
  cases m with
  | nil => simp [matchesHere] at h
  | cons c t =>
    simp only [matchesHere, Bool.and_eq_true, cmatch] at h
    exact ⟨c, t, rfl, h.1⟩

/-! ### Claim theorems -/

/-- C7: for every raw log line the classifier assigns the category by
case-insensitive substring search in the fixed priority order
error/exception/failed, else warning/warn, else success/completed/ok, else
info/debug, else none; in particular any line containing "error",
"exception" or "failed" in any letter case is classified "error" regardless
of any other keyword also present. -/
theorem claim7_classifier_priority (line : String) :
    (getLogClass line =
      (if containsSub (line.data.map jsToLower) "error".data ||
          containsSub (line.data.map jsToLower) "exception".data ||
          containsSub (line.data.map jsToLower) "failed".data then "error"
       else if containsSub (line.data.map jsToLower) "warning".data ||
          containsSub (line.data.map jsToLower) "warn".data then "warning"
       else if containsSub (line.data.map jsToLower) "success".data ||
          containsSub (line.data.map jsToLower) "completed".data ||
          containsSub (line.data.map jsToLower) "ok".data then "success"
       else if containsSub (line.data.map jsToLower) "info".data ||
          containsSub (line.data.map jsToLower) "debug".data then "info"
       else "")) ∧
    (∀ pre mid post : List Char, line.data = pre ++ mid ++ post →
      mid.map jsToLower = "error".data ∨ mid.map jsToLower = "exception".data ∨
        mid.map jsToLower = "failed".data →
      getLogClass line = "error") := by
  constructor
  · rfl
  · intro pre mid post hdec hkw
    rcases hkw with h | h | h
    all_goals {
      have hsub := containsSub_map_decomp jsToLower pre mid post _ h
      rw [← hdec] at hsub
      simp [getLogClass, jsIncludes, jsToLowerStr, hsub]
    }

/-- Witness for C7 at a concrete mixed-case line holding two keywords. -/
theorem claim7_witness : getLogClass "Upload FAILED but parsing ok" = "error" := by
  refine (claim7_classifier_priority "Upload FAILED but parsing ok").2
    "Upload ".data "FAILED".data " but parsing ok".data (by decide) ?_
  right; right; decide

/-- The pattern order stated by the spec: `YYYY-MM-DD HH:MM:SS`,
`MM/DD/YYYY HH:MM:SS`, bracketed `[YYYY-MM-DD HH:MM:SS]`, then bare
`HH:MM:SS` (the source array instead lists the bare pattern third and the
bracketed pattern fourth). -/
def specTimestampOrder : List (List CClass) :=
  [patternYMD, patternMDY, patternBracket, patternTime]

/-- Timestamp extraction as the spec words it, trying `specTimestampOrder`. -/
def specExtractTimestamp (line : String) : Option String :=
  (tryPatterns specTimestampOrder line.data).map String.mk

/-- C8: for every raw log line, timestamp extraction returns the substring
matched by the first pattern, in the spec's order
(`YYYY-MM-DD HH:MM:SS`, `MM/DD/YYYY HH:MM:SS`, bracketed, bare `HH:MM:SS`),
that matches anywhere in the line, or none.  The source tries the bare
pattern before the bracketed one, but the two orders agree on every line
because a bracketed match always contains a match of the first pattern. -/
theorem claim8_extract_order (line : String) :
    extractTimestamp line = specExtractTimestamp line := by
  unfold extractTimestamp specExtractTimestamp
  congr 1
  simp only [patterns, specTimestampOrder, tryPatterns]
  cases h1 : scan patternYMD line.data with
  | some m => rfl
  | none =>
    cases h2 : scan patternMDY line.data with
    | some m => rfl
    | none =>
      cases h4 : scan patternBracket line.data with
      | some m =>
        exfalso
        have hb : existsMatchB patternBracket line.data = true := by
          rw [← scan_isSome, h4]; rfl
        have hy := existsMatchB_bracket_YMD line.data hb
        rw [← scan_isSome, h1] at hy
        simp at hy
      | none =>
        cases h3 : scan patternTime line.data with
        | some m => rfl
        | none => rfl

/-- C10: the bracketed timestamp pattern is dead code.  Whenever it matches
a line, the first (unbracketed) pattern already matches, so
`extractTimestamp` always returns a digit-initial substring and never a
bracketed one; consequently a line whose timestamp appears in brackets
keeps the leftover bracket characters in its displayed body. -/
theorem claim10_bracket_dead (line : String) :
    (existsMatchB patternBracket line.data = true →
      existsMatchB patternYMD line.data = true) ∧
    (∀ m, extractTimestamp line = some m →
      ∃ c t, m.data = c :: t ∧ c.isDigit = true ∧ c ≠ '[') ∧
    formatLogContent "[2024-01-01 10:00:00] Server started" = "[] Server started" := by
  refine ⟨existsMatchB_bracket_YMD line.data, ?_, by decide⟩
  intro m h
  simp only [extractTimestamp, patterns, tryPatterns] at h
  have digitCase : ∀ (rest : List CClass) (m2 : List Char),
      matchesHere (CClass.digit :: rest) m2 = true → m = ⟨m2⟩ →
      ∃ c t, m.data = c :: t ∧ c.isDigit = true ∧ c ≠ '[' := by
    intro rest m2 hmat hm
    obtain ⟨c, t, hct, hd⟩ := matchesHere_digit_head rest m2 hmat
    refine ⟨c, t, by rw [hm, hct], hd, ?_⟩
    intro hc
    rw [hc] at hd
    simp at hd
  cases h1 : scan patternYMD line.data with
  | some m1 =>
    rw [h1] at h
    have hm : m = ⟨m1⟩ := by simpa using h.symm
    exact digitCase _ m1 (scan_matches patternYMD line.data m1 h1) hm
  | none =>
    rw [h1] at h
    cases h2 : scan patternMDY line.data with
    | some m1 =>
      rw [h2] at h
      have hm : m = ⟨m1⟩ := by simpa using h.symm
      exact digitCase _ m1 (scan_matches patternMDY line.data m1 h2) hm
    | none =>
      rw [h2] at h
      cases h3 : scan patternTime line.data with
      | some m1 =>
        rw [h3] at h
        have hm : m = ⟨m1⟩ := by simpa using h.symm
        exact digitCase _ m1 (scan_matches patternTime line.data m1 h3) hm
      | none =>
        rw [h3] at h
        cases h4 : scan patternBracket line.data with
        | some m1 =>
          exfalso
          have hb : existsMatchB patternBracket line.data = true := by
            rw [← scan_isSome, h4]; rfl
          have hy := existsMatchB_bracket_YMD line.data hb
          rw [← scan_isSome, h1] at hy
          simp at hy
        | none =>
          rw [h4] at h
          simp at h

/-- Witness for C10 at a line whose timestamp appears in brackets. -/
theorem claim10_witness :
    existsMatchB patternYMD ("[2024-01-01 10:00:00] done").data = true ∧
    (∃ c t, ("2024-01-01 10:00:00").data = c :: t ∧ c.isDigit = true ∧ c ≠ '[') := by
  refine ⟨(claim10_bracket_dead "[2024-01-01 10:00:00] done").1 (by decide), ?_⟩
  exact (claim10_bracket_dead "[2024-01-01 10:00:00] done").2.1
    "2024-01-01 10:00:00" (by decide)

/-- C3 as stated is false: `formatLogContent` removes only the FIRST
occurrence of the matched substring, so for the line
`"10:00:00 10:00:01"` the extracted pattern (bare `HH:MM:SS`) still matches
the displayed body `"10:00:01"`. -/
theorem claim3_counterexample :
    extractTimestamp "10:00:00 10:00:01" = some "10:00:00" ∧
    formatLogContent "10:00:00 10:00:01" = "10:00:01" ∧
    existsMatchB patternTime (formatLogContent "10:00:00 10:00:01").data = true ∧
    extractTimestamp (formatLogContent "10:00:00 10:00:01") = some "10:00:01" := by
  exact ⟨by decide, by decide, by decide, by decide⟩

/-- C3 amended: for every line from which `extractTimestamp` returns a
timestamp, that timestamp genuinely occurs in the line, and the displayed
body is exactly the line with the first occurrence of the matched substring
removed (shortening it by the timestamp's length), trimmed and escaped; the
same pattern may still match the body when the line held further
occurrences. -/
theorem claim3_amended (line ts : String) (h : extractTimestamp line = some ts) :
    containsSub line.data ts.data = true ∧
    formatLogContent line = escapeHtml (jsTrim (jsReplaceFirst line ts)) ∧
    (jsReplaceFirst line ts).data.length + ts.data.length = line.data.length := by
  have hmap := h
  unfold extractTimestamp at hmap
  rw [Option.map_eq_some'] at hmap
  obtain ⟨m, hm, hts⟩ := hmap
  have hdata : ts.data = m := by rw [← hts]
  obtain ⟨p, _, hscan⟩ := tryPatterns_mem patterns line.data m hm
  have hsub : containsSub line.data ts.data = true := by
    rw [hdata]; exact scan_sub p line.data m hscan
  refine ⟨hsub, ?_, ?_⟩
  · simp [formatLogContent, h]
  · have : (jsReplaceFirst line ts).data = replaceFirstL ts.data line.data := rfl
    rw [this]
    exact replaceFirstL_length ts.data line.data hsub

/-- Witness for C3's amended theorem at a concrete line. -/
theorem claim3_witness :
    containsSub ("2024-01-01 10:00:00 ok").data ("2024-01-01 10:00:00").data = true ∧
    formatLogContent "2024-01-01 10:00:00 ok" =
      escapeHtml (jsTrim (jsReplaceFirst "2024-01-01 10:00:00 ok" "2024-01-01 10:00:00")) ∧
    (jsReplaceFirst "2024-01-01 10:00:00 ok" "2024-01-01 10:00:00").data.length +
      ("2024-01-01 10:00:00").data.length = ("2024-01-01 10:00:00 ok").data.length :=
  claim3_amended "2024-01-01 10:00:00 ok" "2024-01-01 10:00:00" (by decide)

/-- C1 as stated is false at `enableSchedule(0, 'seconds')`: in JavaScript
`parseInt("0") || 5` evaluates to 5 (0 is falsy), so the call is ACCEPTED
with a 5000 ms period — no error is shown, the toggle stays on and a timer
is created. -/
theorem claim1_counterexample :
    (enableSchedule (mkViewer "0" "seconds")).errorMessageShown = none ∧
    (enableSchedule (mkViewer "0" "seconds")).scheduleEnabledChecked = true ∧
    (enableSchedule (mkViewer "0" "seconds")).scheduleTimers = [(0, 5000)] ∧
    (enableSchedule (mkViewer "0" "seconds")).scheduledTask = some 0 :=
  ⟨by decide, by decide, by decide, by decide⟩

/-- C1 amended: a resulting interval below the 1000 ms floor (reachable
only through a negative parsed value) is rejected with the inline error and
the toggle reverted and no timer touched; an unparsable or absent value AND
a parsed 0 default to 5, so `enableSchedule(0,'seconds')` is accepted at
5000 ms; `enableSchedule(1,'hours')` is accepted at exactly 3,600,000 ms. -/
theorem claim1_amended (s : LogViewer) :
    (jsParseInt s.scheduleIntervalValue = none ∨
        jsParseInt s.scheduleIntervalValue = some 0 → parsedInterval s = 5) ∧
    (intervalMs s < 1000 →
      enableSchedule s =
        { s with errorMessageShown := some "Interval must be at least 1 second",
                 scheduleEnabledChecked := false }) ∧
    (1000 ≤ intervalMs s →
      (enableSchedule s).scheduledTask = some s.nextHandle ∧
      (enableSchedule s).scheduleTimers =
        (s.nextHandle, intervalMs s) :: (clearScheduledTask s).scheduleTimers ∧
      (enableSchedule s).scheduleEnabledChecked = s.scheduleEnabledChecked ∧
      (enableSchedule s).errorMessageShown = s.errorMessageShown) ∧
    (s.scheduleUnitValue = "hours" → jsParseInt s.scheduleIntervalValue = some 1 →
      intervalMs s = 3600000) := by
  refine ⟨?_, ?_, ?_, ?_⟩
  · intro h
    rcases h with h | h <;> simp [parsedInterval, h]
  · intro h
    simp [enableSchedule, showError, h]
  · intro h
    have hn : ¬ intervalMs s < 1000 := not_lt.mpr h
    cases hst : s.scheduledTask with
    | none =>
      by_cases hrun : s.isBotRunning <;>
        simp [enableSchedule, hn, addLogEntry, scheduleBot, clearScheduledTask,
              startBotEnter, setStatus, hst, hrun]
    | some h0 =>
      by_cases hrun : s.isBotRunning <;>
        simp [enableSchedule, hn, addLogEntry, scheduleBot, clearScheduledTask,
              startBotEnter, setStatus, hst, hrun]
  · intro hu hp
    simp [intervalMs, parsedInterval, hp, hu]

/-- Witness for C1's amended theorem: `enableSchedule(1,'hours')` accepted
at exactly 3,600,000 ms. -/
theorem claim1_witness :
    intervalMs (mkViewer "1" "hours") = 3600000 ∧
    (enableSchedule (mkViewer "1" "hours")).scheduledTask = some 0 ∧
    (enableSchedule (mkViewer "1" "hours")).scheduleTimers = [(0, 3600000)] := by
  have h := claim1_amended (mkViewer "1" "hours")
  have hms : intervalMs (mkViewer "1" "hours") = 3600000 := h.2.2.2 rfl (by decide)
  have hacc := h.2.2.1 (by rw [hms]; norm_num)
  exact ⟨hms, hacc.1.trans (by decide), hacc.2.1.trans (by rw [hms]; decide)⟩

/-- C2 (code bug): `stopBot` while Running throws.  The constructor never
assigns `this.scheduleBtn`, so after flipping the five tracked controls the
write `this.scheduleBtn.disabled = false` throws a TypeError: the call does
not complete normally, the scheduled task is not cleared and no log entry
is added. -/
theorem claim2_stop_throws :
    runningViewer.isBotRunning = true ∧
    isThrow (stopBot runningViewer) = true ∧
    (stateAfter (stopBot runningViewer)).scheduledTask = some 0 ∧
    (stateAfter (stopBot runningViewer)).scheduleTimers = [(0, 5000)] ∧
    (stateAfter (stopBot runningViewer)).startBotBtnDisabled = false ∧
    (stateAfter (stopBot runningViewer)).logEntries = [] :=
  ⟨by decide, by decide, by decide, by decide, by decide, by decide⟩

/-- C4: single-flight invariant of `loadLogs`.  A call made while a fetch
is pending is a no-op; two back-to-back invocations while the first is
pending issue exactly one request; the loading flag is cleared when the
fetch settles, whatever the outcome. -/
theorem claim4_single_flight (s : LogViewer) (h : s.isLoading = false) :
    (∀ t : LogViewer, t.isLoading = true → loadLogsEnter t = t) ∧
    (loadLogsEnter s).isLoading = true ∧
    (loadLogsEnter s).logRequests = s.logRequests + 1 ∧
    loadLogsEnter (loadLogsEnter s) = loadLogsEnter s ∧
    (loadLogsEnter (loadLogsEnter s)).logRequests = s.logRequests + 1 ∧
    (∀ o, (loadLogsResolve o (loadLogsEnter s)).isLoading = false) := by
  have hno : ∀ t : LogViewer, t.isLoading = true → loadLogsEnter t = t := by
    intro t ht
    simp [loadLogsEnter, ht]
  have h1 : (loadLogsEnter s).isLoading = true := by
    simp [loadLogsEnter, h, hideError]
  have h2 : (loadLogsEnter s).logRequests = s.logRequests + 1 := by
    simp [loadLogsEnter, h, hideError]
  refine ⟨hno, h1, h2, hno _ h1, ?_, ?_⟩
  · rw [hno _ h1]
    exact h2
  · intro o
    rfl

/-- Witness for C4 at a quiescent viewer. -/
theorem claim4_witness :
    (loadLogsEnter (mkViewer "5" "seconds")).logRequests = 1 ∧
    loadLogsEnter (loadLogsEnter (mkViewer "5" "seconds")) =
      loadLogsEnter (mkViewer "5" "seconds") ∧
    (loadLogsResolve (.netError "refused") (loadLogsEnter (mkViewer "5" "seconds"))).isLoading
      = false := by
  have h := claim4_single_flight (mkViewer "5" "seconds") rfl
  exact ⟨h.2.2.1.trans (by decide), h.2.2.2.1, h.2.2.2.2.2 _⟩

/-- Failure shapes of the process-pdfs call: the fetch rejected, the
response was non-2xx, or its body did not parse as JSON (the code awaits
`response.json()` before checking `ok`). -/
def isFailureOutcome : BotFetchOutcome → Bool
  | .netError _ => true
  | .httpResponse ok body =>
    !ok || (match body with | .invalid _ => true | .fields _ _ => false)

/-- C5: any failing bot trigger is handled without an uncaught exception —
the transition is total — with status set to Error, a toast and a log entry
recording the message, and for EVERY outcome the `finally` block restores
Idle: running flag cleared, start enabled, stop disabled and the three
schedule-editing controls re-enabled. -/
theorem claim5_failure_recovery (s : LogViewer) (o : BotFetchOutcome)
    (h : s.isBotRunning = false) :
    (startBot o s).isBotRunning = false ∧
    (startBot o s).startBotBtnDisabled = false ∧
    (startBot o s).stopBotBtnDisabled = true ∧
    (startBot o s).scheduleEnabledDisabled = false ∧
    (startBot o s).scheduleIntervalDisabled = false ∧
    (startBot o s).scheduleUnitDisabled = false ∧
    (isFailureOutcome o = true →
      ∃ m, (startBot o s).statusText = "Error" ∧ (startBot o s).statusType = "error" ∧
        (startBot o s).toasts = ("Error: " ++ m, "error") :: s.toasts ∧
        (startBot o s).logEntries = ("Error starting bot: " ++ m, "error") :: s.logEntries) := by
  refine ⟨?_, ?_, ?_, ?_, ?_, ?_, ?_⟩
  · simp [startBot, h, startBotResolve, startBotFinally]
  · simp [startBot, h, startBotResolve, startBotFinally]
  · simp [startBot, h, startBotResolve, startBotFinally]
  · simp [startBot, h, startBotResolve, startBotFinally]
  · simp [startBot, h, startBotResolve, startBotFinally]
  · simp [startBot, h, startBotResolve, startBotFinally]
  · intro hfail
    cases o with
    | netError m =>
      refine ⟨m, ?_, ?_, ?_, ?_⟩ <;>
        simp [startBot, h, startBotResolve, startBotFinally, startBotCatch,
              startBotEnter, addLogEntry, showToast, setStatus]
    | httpResponse ok body =>
      cases body with
      | invalid m =>
        refine ⟨m, ?_, ?_, ?_, ?_⟩ <;>
          simp [startBot, h, startBotResolve, startBotFinally, startBotCatch,
                startBotEnter, addLogEntry, showToast, setStatus]
      | fields msg errf =>
        have hok : ok = false := by
          simp [isFailureOutcome] at hfail
          exact hfail
        refine ⟨errf.getD "Failed to start bot", ?_, ?_, ?_, ?_⟩ <;>
          simp [startBot, h, hok, startBotResolve, startBotFinally, startBotCatch,
                startBotEnter, addLogEntry, showToast, setStatus]

/-- Witness for C5 at a non-2xx response with an empty JSON object. -/
theorem claim5_witness :
    (startBot (.httpResponse false (.fields none none)) (mkViewer "5" "seconds")).isBotRunning
      = false ∧
    (startBot (.httpResponse false (.fields none none)) (mkViewer "5" "seconds")).statusText
      = "Error" := by
  have h := claim5_failure_recovery (mkViewer "5" "seconds")
    (.httpResponse false (.fields none none)) rfl
  obtain ⟨m, hm⟩ := h.2.2.2.2.2.2 (by decide)
  exact ⟨h.1, hm.1⟩

/-- C9: calling `startBot()` while already Running is a complete no-op —
the guard returns before any request is issued or any control touched, so
the state (request counters included) is unchanged. -/
theorem claim9_start_noop (s : LogViewer) (o : BotFetchOutcome)
    (h : s.isBotRunning = true) : startBot o s = s := by
  simp [startBot, h]

/-- Witness for C9 at the Running viewer. -/
theorem claim9_witness :
    startBot (.netError "refused") runningViewer = runningViewer :=
  claim9_start_noop runningViewer (.netError "refused") (by decide)

/-- The single-schedule invariant: the set of live recurring schedule
timers is empty when `scheduledTask` is null and is exactly the one timer
named by `scheduledTask` otherwise. -/
def schedInvB (s : LogViewer) : Bool :=
  match s.scheduledTask, s.scheduleTimers with
  | none, [] => true
  | some h, [(h2, _)] => h2 == h
  | _, _ => false

theorem schedInvB_congr (s t : LogViewer) (h1 : t.scheduledTask = s.scheduledTask)
    (h2 : t.scheduleTimers = s.scheduleTimers) : schedInvB t = schedInvB s := by
  unfold schedInvB
  rw [h1, h2]

theorem clearScheduledTask_inv (s : LogViewer) (hInv : schedInvB s = true) :
    (clearScheduledTask s).scheduleTimers = [] ∧
    (clearScheduledTask s).scheduledTask = none := by
  unfold schedInvB at hInv
  cases hst : s.scheduledTask with
  | none =>
    rw [hst] at hInv
    cases htm : s.scheduleTimers with
    | nil => simp [clearScheduledTask, hst, htm]
    | cons p ps =>
      rw [htm] at hInv
      simp at hInv
  | some h0 =>
    rw [hst] at hInv
    cases htm : s.scheduleTimers with
    | nil =>
      rw [htm] at hInv
      simp at hInv
    | cons p ps =>
      cases ps with
      | nil =>
        obtain ⟨h2, per⟩ := p
        rw [htm] at hInv
        simp only [beq_iff_eq] at hInv
        simp [clearScheduledTask, hst, htm, hInv]
      | cons q qs =>
        rw [htm] at hInv
        simp at hInv

theorem clearScheduledTask_nextHandle (s : LogViewer) :
    (clearScheduledTask s).nextHandle = s.nextHandle := by
  cases hst : s.scheduledTask <;> simp [clearScheduledTask, hst]

theorem clearScheduledTask_isBotRunning (s : LogViewer) :
    (clearScheduledTask s).isBotRunning = s.isBotRunning := by
  cases hst : s.scheduledTask <;> simp [clearScheduledTask, hst]

theorem clearScheduledTask_botRequests (s : LogViewer) :
    (clearScheduledTask s).botRequests = s.botRequests := by
  cases hst : s.scheduledTask <;> simp [clearScheduledTask, hst]

theorem scheduleBot_facts (s : LogViewer) (ms : Int) (hInv : schedInvB s = true) :
    (scheduleBot ms s).scheduleTimers = [(s.nextHandle, ms)] ∧
    (scheduleBot ms s).scheduledTask = some s.nextHandle ∧
    (s.isBotRunning = false →
      (scheduleBot ms s).botRequests = s.botRequests + 1 ∧
      (scheduleBot ms s).isBotRunning = true) := by
  obtain ⟨ht, htask⟩ := clearScheduledTask_inv s hInv
  by_cases hrun : s.isBotRunning <;>
    simp [scheduleBot, startBotEnter, setStatus, ht, htask,
          clearScheduledTask_nextHandle, clearScheduledTask_isBotRunning,
          clearScheduledTask_botRequests, hrun]

/-- C6: single-schedule invariant.  `scheduleBot` (hence enabling, or
changing the interval or unit while enabled) always cancels the prior timer
before creating the new one — afterwards the new timer is the ONLY live
schedule timer — the invariant is preserved by every schedule operation and
by a timer tick, re-applying on an input change is literally re-running
`enableSchedule`, and acceptance immediately triggers a bot run when none
is in flight. -/
theorem claim6_single_schedule (s : LogViewer) (ms : Int) (hInv : schedInvB s = true) :
    (scheduleBot ms s).scheduleTimers = [(s.nextHandle, ms)] ∧
    (scheduleBot ms s).scheduledTask = some s.nextHandle ∧
    schedInvB (scheduleBot ms s) = true ∧
    schedInvB (enableSchedule s) = true ∧
    schedInvB (updateScheduleIfEnabled s) = true ∧
    schedInvB (disableSchedule s) = true ∧
    schedInvB (scheduleTick s) = true ∧
    (s.scheduleEnabledChecked = true → updateScheduleIfEnabled s = enableSchedule s) ∧
    (s.isBotRunning = false →
      (scheduleBot ms s).botRequests = s.botRequests + 1 ∧
      (scheduleBot ms s).isBotRunning = true) := by
  obtain ⟨hbt, hbtask, hbrun⟩ := scheduleBot_facts s ms hInv
  have hSchedBot : ∀ q : Int, schedInvB (scheduleBot q s) = true := by
    intro q
    obtain ⟨h1, h2, _⟩ := scheduleBot_facts s q hInv
    unfold schedInvB
    rw [h1, h2]
    simp
  have hEnable : schedInvB (enableSchedule s) = true := by
    by_cases hms : intervalMs s < 1000
    · have heq : schedInvB (enableSchedule s) = schedInvB s := by
        apply schedInvB_congr <;> simp [enableSchedule, showError, hms]
      rw [heq]
      exact hInv
    · have heq : schedInvB (enableSchedule s) = schedInvB (scheduleBot (intervalMs s) s) := by
        apply schedInvB_congr <;> simp [enableSchedule, addLogEntry, hms]
      rw [heq]
      exact hSchedBot _
  refine ⟨hbt, hbtask, hSchedBot ms, hEnable, ?_, ?_, ?_, ?_, hbrun⟩
  · by_cases hc : s.scheduleEnabledChecked
    · simpa [updateScheduleIfEnabled, hc] using hEnable
    · simpa [updateScheduleIfEnabled, hc] using hInv
  · obtain ⟨ht, htask⟩ := clearScheduledTask_inv s hInv
    have heq : schedInvB (disableSchedule s) = schedInvB (clearScheduledTask s) := by
      apply schedInvB_congr <;> simp [disableSchedule, addLogEntry]
    rw [heq]
    unfold schedInvB
    rw [ht, htask]
  · have heq : schedInvB (scheduleTick s) = schedInvB s := by
      apply schedInvB_congr <;>
        by_cases hrun : s.isBotRunning <;>
          simp [scheduleTick, addLogEntry, startBotEnter, setStatus, hrun]
    rw [heq]
    exact hInv
  · intro hc
    simp [updateScheduleIfEnabled, hc]

/-- Witness for C6: superseding the live 5-second schedule of the Running
viewer with a 7-second one leaves exactly the new timer. -/
theorem claim6_witness :
    (scheduleBot 7000 runningViewer).scheduleTimers = [(1, 7000)] ∧
    (scheduleBot 7000 runningViewer).scheduledTask = some 1 ∧
    schedInvB (scheduleBot 7000 runningViewer) = true := by
  have h := claim6_single_schedule runningViewer 7000 (by decide)
  exact ⟨h.1.trans (by decide), h.2.1.trans (by decide), h.2.2.1⟩

end BotDash
